import Mathlib

/-!
Verification development for the retrieval-and-generation pipeline of the
research-paper-gen repository.  Python strings are embedded as `List Char`;
the relevant functions of `backend/services/content_generator.py`,
`backend/services/background_tasks.py`, `backend/services/file_processor.py`
and `backend/main.py` are translated into executable Lean definitions, and
the specified behaviours are stated and proved about those definitions.
-/

set_option autoImplicit false

/-- Embedded Python string: a list of characters. -/
abbrev Str := List Char

/-- Python whitespace test (`str.isspace` on the ASCII range; the source only
ever strips and splits ASCII whitespace in the embedded paths). -/
def isPySpace (c : Char) : Bool :=
  c == ' ' || c == '\t' || c == '\n' || c == '\r' || c == '\x0b' || c == '\x0c'

/-- `str.lower()` restricted to ASCII letters, as used for the
case-insensitive keyword and section-name matching in the source. -/
def toLowerL (s : Str) : Str := s.map Char.toLower

/-- Does `pre` occur at the start of `s`?  (Helper for Python `startswith`,
substring containment and `str.split(sep)`.) -/
def listIsPre : Str → Str → Bool
  | [], _ => true
  | _ :: _, [] => false
  | a :: as, b :: bs => a == b && listIsPre as bs

/-- Python substring containment `needle in hay`. -/
def listHasSub (needle : Str) : Str → Bool
  | [] => needle.isEmpty
  | c :: cs => listIsPre needle (c :: cs) || listHasSub needle cs

/-- Python `str.strip()`: drop whitespace from both ends. -/
def pyStrip (s : Str) : Str :=
  ((s.dropWhile isPySpace).reverse.dropWhile isPySpace).reverse

/-- Split off the text before the first occurrence of `sep` in `s`, together
with the text after that occurrence; `none` when `sep` does not occur. -/
def splitFirst (sep : Str) : Str → Option (Str × Str)
  | [] => none
  | c :: cs =>
    if listIsPre sep (c :: cs) then some ([], (c :: cs).drop sep.length)
    else
      match splitFirst sep cs with
      | none => none
      | some (b, r) => some (c :: b, r)

/-- Fuel-driven worker for Python `str.split(sep)`: repeatedly cut at the
leftmost occurrence of `sep`, keeping empty pieces.  The wrapper passes fuel
larger than the string length, which is always sufficient for a non-empty
separator. -/
def splitOnSepF (sep : Str) : Nat → Str → List Str
  | 0, s => [s]
  | fuel + 1, s =>
    match splitFirst sep s with
    | none => [s]
    | some (b, r) => b :: splitOnSepF sep fuel r

/-- Python `str.split(sep)` for a non-empty separator. -/
def splitOnSep (sep s : Str) : List Str := splitOnSepF sep (s.length + 1) s

/-- Python `str.replace(pat, rep)` for a non-empty pattern: replace every
non-overlapping leftmost occurrence, i.e. join the `split` pieces with
`rep`. -/
def replaceAll (pat rep s : Str) : Str :=
  List.intercalate rep (splitOnSep pat s)

/-- The prefix of `s` that ends at the last newline of `s` (empty when `s`
has no newline). -/
def upToLastNl (s : Str) : Str :=
  (s.reverse.dropWhile (fun c => !(c == '\n'))).reverse

/-- Fuel-driven worker for the source's blank-line collapsing
`re.sub(r'\n\s*\n\s*\n+', '\n\n', content)`.  A match of that pattern is a
maximal stretch of whitespace that starts at a newline, contains at least
three newlines, and (by greediness of the trailing `\n+`) ends at the last
newline of the stretch; each match is replaced by exactly two newlines and
scanning resumes after it. -/
def collapseBlankRunsF : Nat → Str → Str
  | 0, s => s
  | fuel + 1, s =>
    match s with
    | [] => []
    | c :: cs =>
      if c = '\n' ∧ 2 ≤ (cs.takeWhile isPySpace).count '\n' then
        '\n' :: '\n' ::
          collapseBlankRunsF fuel (cs.drop (upToLastNl (cs.takeWhile isPySpace)).length)
      else c :: collapseBlankRunsF fuel cs

/-- `re.sub(r'\n\s*\n\s*\n+', '\n\n', content)` from `post_process_content`. -/
def collapseBlankRuns (s : Str) : Str := collapseBlankRunsF (s.length + 1) s

/-- Worker for `re.sub(r'\n+', ' ', content)`: each maximal run of newlines
becomes one space; the flag records whether the previous character was a
newline (i.e. whether we are inside a run already replaced). -/
def nlRunsToSpaceAux : Bool → Str → Str
  | _, [] => []
  | prevNl, c :: cs =>
    if c = '\n' then
      if prevNl then nlRunsToSpaceAux true cs
      else ' ' :: nlRunsToSpaceAux true cs
    else c :: nlRunsToSpaceAux false cs

/-- `re.sub(r'\n+', ' ', content)` from the Abstract branch of
`post_process_content`. -/
def nlRunsToSpace (s : Str) : Str := nlRunsToSpaceAux false s

/-- `re.sub(r'^(Here is the|Here\x27s the|The following is)', '', content,
flags=re.IGNORECASE)`: the anchor `^` matches only at the start of the
string, so at most one alternative (tried in order) is removed. -/
def stripLeadIntro (alts : List Str) (content : Str) : Str :=
  match alts with
  | [] => content
  | a :: rest =>
    if listIsPre (toLowerL a) (toLowerL content) then content.drop a.length
    else stripLeadIntro rest content

/-- The three literal alternatives of the unwanted-preamble pattern. -/
def introAlts : List Str :=
  ["Here is the".data, "Here\x27s the".data, "The following is".data]

/-- `re.sub(r'^' + re.escape(section_name) + r'\s*:?\s*', '', content,
flags=re.IGNORECASE)`: when the content starts with the (escaped, hence
literal) section name case-insensitively, drop the name, then greedily any
whitespace, then one optional colon, then greedily any whitespace. -/
def stripNameEcho (sectionName content : Str) : Str :=
  if listIsPre (toLowerL sectionName) (toLowerL content) then
    let r1 := (content.drop sectionName.length).dropWhile isPySpace
    let r2 := match r1 with
      | ':' :: t => t
      | _ => r1
    r2.dropWhile isPySpace
  else content

/-- `post_process_content` from `content_generator.py`.  Note that the
citation-formatting step `re.sub(r'\[(\d+)\]', r'[\1]', content)` replaces
every match with itself and is therefore the identity on the string value,
so it contributes no transformation here. -/
def postProcessContent (content sectionName : Str) : Str :=
  let c1 := stripLeadIntro introAlts content
  let c2 := stripNameEcho sectionName c1
  let c3 := collapseBlankRuns c2
  let c4 := pyStrip c3
  if sectionName = "Abstract".data then pyStrip (nlRunsToSpace c4) else c4

/-- Python `dict` assignment `sections[matched_section] = content`:
overwrite the value in place when the key is present, otherwise append the
pair at the end (insertion order is preserved). -/
def updateAssoc (m : List (Str × Str)) (k v : Str) : List (Str × Str) :=
  match m with
  | [] => [(k, v)]
  | (k0, v0) :: t => if k0 = k then (k, v) :: t else (k0, v0) :: updateAssoc t k v

/-- The literal batch-section marker used by the source. -/
def sectionMarker : Str := "=== SECTION:".data

/-- Per-fragment step of `_parse_multiple_sections`: strip the fragment,
split into lines, recover the section name from the first line, match it
case-insensitively by substring containment against the expected names, and
on a match store the post-processed remainder under the matched name. -/
def parseFragmentStep (sectionNames : List Str) (sections : List (Str × Str))
    (part : Str) : List (Str × Str) :=
  match splitOnSep ['\n'] (pyStrip part) with
  | [] => sections
  | line0 :: rest =>
    let sectionName := pyStrip (replaceAll "===".data [] (pyStrip line0))
    match sectionNames.find? (fun exp => listHasSub (toLowerL exp) (toLowerL sectionName)) with
    | none => sections
    | some matched =>
      let sectionContent := pyStrip (List.intercalate ['\n'] rest)
      updateAssoc sections matched (postProcessContent sectionContent matched)

/-- `_parse_multiple_sections` from `content_generator.py`: split the raw
response on the literal marker, drop the text before the first marker, and
fold the fragments into an insertion-ordered mapping. -/
def parseMultipleSections (content : Str) (sectionNames : List Str) :
    List (Str × Str) :=
  ((splitOnSep sectionMarker content).drop 1).foldl (parseFragmentStep sectionNames) []

/-- Outcome of one underlying `client.models.generate_content` call: either
the response text or the message of the raised exception. -/
inductive GenOutcome where
  | ok (content : Str)
  | err (msg : Str)

/-- Observable trace of one run of a retry loop: the final result (returned
value or raised message), how many attempts were made, and the sleeps
performed between attempts, in order and in seconds. -/
structure GenTrace (α : Type) where
  result : Except Str α
  attemptsMade : Nat
  sleeps : List Nat

/-- The rate-limit/quota classifier of the source:
`any(keyword in error_msg.lower() for keyword in ["429", "quota", "rate", "limit"])`. -/
def isRateLimitMsg (msg : Str) : Bool :=
  ["429".data, "quota".data, "rate".data, "limit".data].any
    (fun k => listHasSub k (toLowerL msg))

/-- The terminal message of `generate_section_content`:
`f"Content generation failed after {max_retries} attempts: {error_msg}"`. -/
def genFailMsg (maxRetries : Nat) (msg : Str) : Str :=
  "Content generation failed after ".data ++ (Nat.repr maxRetries).data
    ++ " attempts: ".data ++ msg

/-- The retry loop of `generate_section_content`, indexed by the number of
loop iterations still available.  On success the response is post-processed
and returned.  On an exception: if the message is rate-limit flavoured and
this is not the last attempt, sleep the current delay, double it and retry;
otherwise, if this is the last attempt, raise the terminal wrapper; otherwise
(a non-rate-limit error on a non-final attempt) fall through to the next
iteration with no sleep and an unchanged delay, exactly as the Python
`except` block does. -/
def genLoop (call : Nat → GenOutcome) (sectionName : Str) (maxRetries : Nat) :
    Nat → Nat → Nat → GenTrace Str
  | 0, attempt, _ =>
    ⟨Except.error ("Content generation failed for ".data ++ sectionName), attempt, []⟩
  | remaining + 1, attempt, delay =>
    match call attempt with
    | GenOutcome.ok content =>
        ⟨Except.ok (postProcessContent content sectionName), attempt + 1, []⟩
    | GenOutcome.err msg =>
        if isRateLimitMsg msg = true ∧ attempt < maxRetries - 1 then
          let t := genLoop call sectionName maxRetries remaining (attempt + 1) (delay * 2)
          ⟨t.result, t.attemptsMade, delay :: t.sleeps⟩
        else if attempt = maxRetries - 1 then
          ⟨Except.error (genFailMsg maxRetries msg), attempt + 1, []⟩
        else
          genLoop call sectionName maxRetries remaining (attempt + 1) delay

/-- `generate_section_content`:  `max_retries = 3`, `retry_delay = 30`. -/
def generateSectionContent (call : Nat → GenOutcome) (sectionName : Str) :
    GenTrace Str :=
  genLoop call sectionName 3 3 0 30

/-- The terminal message of `generate_multiple_sections_content`:
`f"Multi-section generation failed after {max_retries} attempts: {error_msg}"`. -/
def multiFailMsg (maxRetries : Nat) (msg : Str) : Str :=
  "Multi-section generation failed after ".data ++ (Nat.repr maxRetries).data
    ++ " attempts: ".data ++ msg

/-- The retry loop of `generate_multiple_sections_content`: identical
control flow to `genLoop`, except that a successful response is parsed into
the per-section mapping (which is returned even when incomplete). -/
def genMultiLoop (call : Nat → GenOutcome) (sectionNames : List Str)
    (maxRetries : Nat) : Nat → Nat → Nat → GenTrace (List (Str × Str))
  | 0, attempt, _ =>
    ⟨Except.error ("Multi-section generation failed".data), attempt, []⟩
  | remaining + 1, attempt, delay =>
    match call attempt with
    | GenOutcome.ok content =>
        ⟨Except.ok (parseMultipleSections content sectionNames), attempt + 1, []⟩
    | GenOutcome.err msg =>
        if isRateLimitMsg msg = true ∧ attempt < maxRetries - 1 then
          let t := genMultiLoop call sectionNames maxRetries remaining (attempt + 1) (delay * 2)
          ⟨t.result, t.attemptsMade, delay :: t.sleeps⟩
        else if attempt = maxRetries - 1 then
          ⟨Except.error (multiFailMsg maxRetries msg), attempt + 1, []⟩
        else
          genMultiLoop call sectionNames maxRetries remaining (attempt + 1) delay

/-- `generate_multiple_sections_content`: `max_retries = 3`, `retry_delay = 30`. -/
def generateMultipleSectionsContent (call : Nat → GenOutcome)
    (sectionNames : List Str) : GenTrace (List (Str × Str)) :=
  genMultiLoop call sectionNames 3 3 0 30

/-- Worker for Python `str.split()` (no separator): accumulate the current
token (reversed) and flush it at each whitespace run or at the end; empty
pieces are never produced. -/
def splitWsAux : Str → Str → List Str
  | acc, [] => if acc.isEmpty then [] else [acc.reverse]
  | acc, c :: cs =>
    if isPySpace c then
      if acc.isEmpty then splitWsAux [] cs
      else acc.reverse :: splitWsAux [] cs
    else splitWsAux (c :: acc) cs

/-- Python `content.split()`. -/
def pySplitWs (s : Str) : List Str := splitWsAux [] s

/-- Rounding to one decimal place, `round(x, 1)`, over the rationals.  For
the values produced here (`n / 250` and `n / 25` with `n : Nat`) an exact
tie at a half-tenth is impossible (`2 * n = 25 mod 50` has no solution), so
the handedness of tie-breaking is immaterial. -/
def roundTo1 (q : ℚ) : ℚ := (round (q * 10) : ℤ) / 10

/-- The record returned by `estimate_content_length`. -/
structure ContentMetrics where
  words : Nat
  characters : Nat
  estimatedPages : ℚ
  deriving DecidableEq

/-- `estimate_content_length` from `content_generator.py`:
`words = len(content.split())`, `chars = len(content)`,
`estimated_pages = round(words / 250, 1)`. -/
def estimateContentLength (content : Str) : ContentMetrics :=
  let words := (pySplitWs content).length
  { words := words
  , characters := content.length
  , estimatedPages := roundTo1 ((words : ℚ) / 250) }

/-- The specification's notion of word count: the number of maximal runs of
non-whitespace characters (i.e. of whitespace-separated tokens).  The flag
records whether the previous character was inside a token. -/
def tokenCountAux : Bool → Str → Nat
  | _, [] => 0
  | inTok, c :: cs =>
    if isPySpace c then tokenCountAux false cs
    else (if inTok then 0 else 1) + tokenCountAux true cs

/-- Count of whitespace-separated tokens of a string (specification side of
the word-count refinement). -/
def tokenCount (s : Str) : Nat := tokenCountAux false s

/-- The fixed canonical section list of `_generate_complete_paper_background`
(`comprehensive_sections`). -/
def comprehensiveSections : List Str :=
  ["Abstract".data, "Introduction".data, "Literature Review".data,
   "Methodology".data, "System Design".data, "Implementation".data,
   "Experimental Setup".data, "Results".data, "Discussion".data,
   "Conclusion".data, "Future Work".data]

/-- `remaining_sections = [s for s in comprehensive_sections if s not in
existing_sections]`. -/
def remainingSections (existing : List Str) : List Str :=
  comprehensiveSections.filter (fun s => !existing.contains s)

/-- The pairing loop `for i in range(0, len(remaining_sections), 2)`:
adjacent entries are paired, an odd leftover forms a singleton batch. -/
def makePairs {α : Type} : List α → List (List α)
  | [] => []
  | [a] => [[a]]
  | a :: b :: rest => [a, b] :: makePairs rest

/-- Outcome of producing `batch_content` for one batch: either an exception
reached the per-batch `except` handler, or a name-to-content mapping was
produced. -/
inductive BatchResult where
  | failed (msg : Str)
  | generated (secs : List (Str × Str))

/-- The inner save loop `for section_name, generated_content in
batch_content.items()`: metrics are computed and `total_words` incremented
*before* the insert is attempted, so a failed insert still contributes its
words to the running total; only a successful insert (modelled by the
`saveOk` oracle, which also covers the metadata-column fallback) appends the
section to `generated_sections`.  The accumulator is (names of sections
appended to `generated_sections`, running `total_words`). -/
def saveSections (saveOk : Str → Bool) (secs : List (Str × Str))
    (acc : List Str × Nat) : List Str × Nat :=
  secs.foldl
    (fun acc sec =>
      let words := (estimateContentLength sec.2).words
      if saveOk sec.1 then (acc.1 ++ [sec.1], acc.2 + words)
      else (acc.1, acc.2 + words))
    acc

/-- The per-batch loop of `_generate_complete_paper_background`: a batch
whose generation raises is skipped (`continue` in the per-batch `except`
handler) and processing moves on to the remaining batches. -/
def processBatchesAux (gen : List Str → BatchResult) (saveOk : Str → Bool) :
    List (List Str) → List Str × Nat → List Str × Nat
  | [], acc => acc
  | b :: rest, acc =>
    match gen b with
    | BatchResult.failed _ => processBatchesAux gen saveOk rest acc
    | BatchResult.generated secs =>
        processBatchesAux gen saveOk rest (saveSections saveOk secs acc)

/-- The fields written to the Paper row by the final update of the
background job. -/
structure PaperUpdate where
  status : Str
  completedSections : Nat
  totalSections : Nat
  progressPercentage : Nat
  totalWords : Nat
  estimatedPages : ℚ

/-- The unconditional tail of `_generate_complete_paper_background`:
`final_status` with `status = "completed"`, `completed_sections =
len(generated_sections)`, `total_sections = len(comprehensive_sections)`,
`progress_percentage = 100`, and the aggregate word/page totals. -/
def finalPaperUpdate (acc : List Str × Nat) : PaperUpdate :=
  { status := "completed".data
  , completedSections := acc.1.length
  , totalSections := comprehensiveSections.length
  , progressPercentage := 100
  , totalWords := acc.2
  , estimatedPages := roundTo1 ((acc.2 : ℚ) / 250) }

/-- The generation phase of the background job, from the already-existing
section names onward: compute the remaining sections, pair them into
batches, run the per-batch loop, and perform the final Paper update.
Returns the final update together with the names of the sections inserted
during this run. -/
def runGenerationJob (existing : List Str) (gen : List Str → BatchResult)
    (saveOk : Str → Bool) : PaperUpdate × List Str :=
  let acc := processBatchesAux gen saveOk (makePairs (remainingSections existing)) ([], 0)
  (finalPaperUpdate acc, acc.1)

/-- The fields of a Section row relevant to ordering. -/
structure SectionRow where
  sectionName : Str
  content : Str
  orderIndex : Nat

/-- The `section_data` built by the `/api/generate` endpoint in `main.py`:
`"order_index": 0,  # Will be updated by user`. -/
def apiGenerateSectionRow (sectionName content : Str) : SectionRow :=
  { sectionName := sectionName, content := content, orderIndex := 0 }

/-- The `section_data` built by the background job:
`section_index = comprehensive_sections.index(section_name)`. -/
def backgroundSectionRow (sectionName content : Str) : SectionRow :=
  { sectionName := sectionName, content := content
  , orderIndex := comprehensiveSections.indexOf sectionName }

/-- `generate_embeddings` from `file_processor.py`: one call to the
underlying encoder (the call oracle is indexed so that the number of calls
made is observable), with any raised error wrapped once as
`f"Error generating embeddings: {str(e)}"`; the second component is the
number of underlying calls performed. -/
def generateEmbeddings (call : Nat → Except Str (List ℚ)) :
    Except Str (List ℚ) × Nat :=
  match call 0 with
  | Except.ok v => (Except.ok v, 1)
  | Except.error m => (Except.error ("Error generating embeddings: ".data ++ m), 1)

/-- A string always occurs at the start of itself. -/
theorem listIsPre_refl (s : Str) : listIsPre s s = true := by
  induction s with
  | nil => rfl
  | cons c cs ih => simp [listIsPre, ih]

/-- A string is a substring of itself. -/
theorem listHasSub_self (s : Str) : listHasSub s s = true := by
  cases s with
  | nil => rfl
  | cons c cs => simp [listHasSub, listIsPre_refl]

/-- A string is a substring of any extension of it on the left. -/
theorem listHasSub_append (p m : Str) : listHasSub m (p ++ m) = true := by
  induction p with
  | nil => simpa using listHasSub_self m
  | cons c cs ih => simp [listHasSub, ih]

/-- Any key present after a `dict` assignment was present before or is the
assigned key. -/
theorem mem_updateAssoc (m : List (Str × Str)) (k0 v0 k v : Str)
    (h : (k, v) ∈ updateAssoc m k0 v0) : (k, v) ∈ m ∨ k = k0 := by
  induction m with
  | nil =>
    simp [updateAssoc] at h
    exact Or.inr h.1
  | cons hd t ih =>
    obtain ⟨k1, v1⟩ := hd
    simp only [updateAssoc] at h
    by_cases hk : k1 = k0
    · simp [hk] at h
      rcases h with ⟨rfl, rfl⟩ | hm
      · exact Or.inr rfl
      · exact Or.inl (List.mem_cons_of_mem _ hm)
    · simp [hk] at h
      rcases h with ⟨rfl, rfl⟩ | hm
      · exact Or.inl (List.mem_cons_self _ _)
      · rcases ih hm with hm' | rfl
        · exact Or.inl (List.mem_cons_of_mem _ hm')
        · exact Or.inr rfl

/-- Any key present after processing one fragment was present before or is
one of the expected section names. -/
theorem mem_parseFragmentStep (names : List Str) (acc : List (Str × Str))
    (part k v : Str) (h : (k, v) ∈ parseFragmentStep names acc part) :
    (k, v) ∈ acc ∨ k ∈ names := by
  unfold parseFragmentStep at h
  split at h
  · exact Or.inl h
  · dsimp only at h
    split at h
    · exact Or.inl h
    · next matched hfind =>
        rcases mem_updateAssoc _ _ _ _ _ h with hm | hk
        · exact Or.inl hm
        · exact Or.inr (hk ▸ List.mem_of_find?_eq_some hfind)

/-- Folding the fragment step preserves the invariant that every stored key
is an expected section name. -/
theorem foldl_parseFragmentStep_keys (names : List Str) (parts : List Str) :
    ∀ acc : List (Str × Str), (∀ k v, (k, v) ∈ acc → k ∈ names) →
      ∀ k v, (k, v) ∈ parts.foldl (parseFragmentStep names) acc → k ∈ names := by
  induction parts with
  | nil => intro acc hacc k v h; exact hacc k v h
  | cons part rest ih =>
    intro acc hacc k v h
    refine ih (parseFragmentStep names acc part) ?_ k v h
    intro k' v' h'
    rcases mem_parseFragmentStep names acc part k' v' h' with hm | hn
    · exact hacc k' v' hm
    · exact hn

/-- The word-count worker of `str.split()` agrees with the token counter:
the number of pieces equals the number of completed tokens plus the pending
one. -/
theorem splitWsAux_length (cs : Str) :
    ∀ acc : Str, (splitWsAux acc cs).length
      = tokenCountAux (!acc.isEmpty) cs + (if acc.isEmpty then 0 else 1) := by
  induction cs with
  | nil =>
    intro acc
    cases acc <;> simp [splitWsAux, tokenCountAux]
  | cons c cs ih =>
    intro acc
    by_cases hc : isPySpace c = true
    · cases acc <;> simp [splitWsAux, tokenCountAux, hc, ih]
    · cases acc <;> simp [splitWsAux, tokenCountAux, hc, ih]
      omega

/-- `makePairs` concatenates back to its input. -/
theorem makePairs_flatten {α : Type} : ∀ xs : List α, (makePairs xs).flatten = xs
  | [] => rfl
  | [_] => rfl
  | a :: b :: rest => by
      simp [makePairs, makePairs_flatten rest]

/-- Every batch produced by `makePairs` holds one or two entries. -/
theorem makePairs_mem_length {α : Type} :
    ∀ xs (b : List α), b ∈ makePairs xs → 1 ≤ b.length ∧ b.length ≤ 2
  | [], b, h => by simp [makePairs] at h
  | [a], b, h => by
      simp [makePairs] at h
      simp [h]
  | a :: a' :: rest, b, h => by
      simp only [makePairs, List.mem_cons] at h
      rcases h with rfl | h
      · simp
      · exact makePairs_mem_length rest b h

/-- C5: parsing the raw response
`=== SECTION: Abstract ===\nfoo\n=== SECTION: Introduction ===\nbar` with
expected section names `["Abstract", "Introduction"]` yields exactly the
mapping `{"Abstract": "foo", "Introduction": "bar"}`. -/
theorem parse_batch_roundtrip :
    parseMultipleSections
      ("=== SECTION: Abstract ===\nfoo\n=== SECTION: Introduction ===\nbar").data
      ["Abstract".data, "Introduction".data]
      = [("Abstract".data, "foo".data), ("Introduction".data, "bar".data)] := by
  decide

/-- C6: for every raw response and every expected-name list, the batch
parser totally computes a mapping (it never raises), and every key of that
mapping is one of the expected section names — unmatched fragments are
dropped, so the mapping may have fewer entries than expected but never an
unexpected key. -/
theorem parse_batch_keys_subset (content : Str) (names : List Str) (k v : Str)
    (h : (k, v) ∈ parseMultipleSections content names) : k ∈ names := by
  refine foldl_parseFragmentStep_keys names _ [] ?_ k v h
  intro k' v' h'
  simp at h'

/-- Witness for C6 at a concrete response and name list. -/
theorem parse_batch_keys_subset_witness :
    "Results".data ∈ [("Results").data] :=
  parse_batch_keys_subset ("=== SECTION: Results ===\nbody").data
    ["Results".data] "Results".data "body".data (by decide)

/-- C8: for every content string, `estimate_content_length` reports a word
count equal to the number of whitespace-separated tokens of the content and
an estimated page count equal to that word count divided by 250, rounded to
one decimal place. -/
theorem content_metrics_words_pages (content : Str) :
    (estimateContentLength content).words = tokenCount content ∧
    (estimateContentLength content).estimatedPages
      = roundTo1 ((tokenCount content : ℚ) / 250) := by
  have h : (pySplitWs content).length = tokenCount content := by
    simpa [pySplitWs, tokenCount] using splitWsAux_length content []
  exact ⟨h, by simp [estimateContentLength, h]⟩

/-- C2: for every set of existing section names, the remaining work is the
canonical section list minus the existing names in canonical order, no
remaining section (hence no generated batch entry) is already present, and
the batches pair adjacent remaining entries with at most two sections each,
concatenating back to exactly the remaining list. -/
theorem remaining_sections_batching (existing : List Str) :
    (remainingSections existing).Sublist comprehensiveSections ∧
    (∀ s, s ∈ remainingSections existing → existing.contains s = false) ∧
    (∀ b, b ∈ makePairs (remainingSections existing) →
      1 ≤ b.length ∧ b.length ≤ 2) ∧
    (makePairs (remainingSections existing)).flatten = remainingSections existing ∧
    (∀ b, b ∈ makePairs (remainingSections existing) → ∀ s, s ∈ b →
      existing.contains s = false) := by
  have hmem : ∀ s, s ∈ remainingSections existing → existing.contains s = false := by
    intro s hs
    simp only [remainingSections, List.mem_filter, Bool.not_eq_true'] at hs
    exact hs.2
  refine ⟨List.filter_sublist _, hmem, ?_, makePairs_flatten _, ?_⟩
  · intro b hb
    exact makePairs_mem_length _ b hb
  · intro b hb s hs
    exact hmem s (by
      rw [← makePairs_flatten (remainingSections existing)]
      exact List.mem_flatten.mpr ⟨b, hb, hs⟩)

/-- Witness for C2: with Abstract already present, Introduction is still
pending and is not among the existing names. -/
theorem remaining_sections_batching_witness :
    List.contains ["Abstract".data] "Introduction".data = false :=
  (remaining_sections_batching ["Abstract".data]).2.1 "Introduction".data (by decide)

/-- C1 (divergence witness): when every underlying call raises an error
whose message contains none of the rate-limit keywords, the source's
`except` block neither sleeps nor raises on the non-final attempts — it
falls through and retries — so the call fails only after all 3 attempts,
contradicting the documented fail-immediately behaviour (the code's own
comment says a non-rate-limit error should raise at once). -/
theorem nontransient_error_retried_to_exhaustion :
    (generateSectionContent (fun _ => GenOutcome.err "connection refused".data)
        "Abstract".data).attemptsMade = 3 ∧
    (generateSectionContent (fun _ => GenOutcome.err "connection refused".data)
        "Abstract".data).sleeps = [] ∧
    (generateSectionContent (fun _ => GenOutcome.err "connection refused".data)
        "Abstract".data).result
      = Except.error ("Content generation failed after 3 attempts: connection refused".data) ∧
    (generateMultipleSectionsContent (fun _ => GenOutcome.err "connection refused".data)
        ["Abstract".data, "Introduction".data]).attemptsMade = 3 ∧
    (generateMultipleSectionsContent (fun _ => GenOutcome.err "connection refused".data)
        ["Abstract".data, "Introduction".data]).sleeps = [] :=
  ⟨by decide, by decide, by rfl, by decide, by decide⟩

/-- C3: a batch whose generation fails inside the per-batch try boundary is
skipped and processing continues with the remaining batches, and the final
Paper update of the job is unconditionally `completed` with 100% progress
over the 11 canonical sections, whatever the batch outcomes were. -/
theorem job_completes_despite_batch_failures (existing : List Str)
    (gen : List Str → BatchResult) (saveOk : Str → Bool)
    (batches : List (List Str)) (acc : List Str × Nat) (b : List Str) (msg : Str)
    (hb : gen b = BatchResult.failed msg) :
    processBatchesAux gen saveOk (b :: batches) acc
      = processBatchesAux gen saveOk batches acc ∧
    (runGenerationJob existing gen saveOk).1.status = "completed".data ∧
    (runGenerationJob existing gen saveOk).1.progressPercentage = 100 ∧
    (runGenerationJob existing gen saveOk).1.totalSections = 11 :=
  ⟨by simp [processBatchesAux, hb], rfl, rfl, rfl⟩

/-- Witness for C3: a job all of whose batches fail still completes. -/
theorem job_completes_despite_batch_failures_witness :
    (runGenerationJob [] (fun _ => BatchResult.failed "boom".data)
      (fun _ => true)).1.status = "completed".data :=
  (job_completes_despite_batch_failures [] (fun _ => BatchResult.failed "boom".data)
    (fun _ => true) [] ([], 0) ["Abstract".data] "boom".data rfl).2.1

/-- C4: when every attempt raises a rate-limit-flavoured error, the
generation client makes exactly 3 attempts, sleeping 30 then 60 seconds
between them (total sleep at least 90 seconds), and then raises the
terminal wrapper around the last error message. -/
theorem rate_limit_retry_exhaustion (call : Nat → GenOutcome) (sectionName : Str)
    (h : ∀ n, ∃ m, call n = GenOutcome.err m ∧ isRateLimitMsg m = true) :
    (generateSectionContent call sectionName).attemptsMade = 3 ∧
    (generateSectionContent call sectionName).sleeps = [30, 60] ∧
    90 ≤ (generateSectionContent call sectionName).sleeps.sum ∧
    ∃ m, call 2 = GenOutcome.err m ∧
      (generateSectionContent call sectionName).result
        = Except.error (genFailMsg 3 m) := by
  obtain ⟨m0, h0, r0⟩ := h 0
  obtain ⟨m1, h1, r1⟩ := h 1
  obtain ⟨m2, h2, r2⟩ := h 2
  have e : generateSectionContent call sectionName
      = ⟨Except.error (genFailMsg 3 m2), 3, [30, 60]⟩ := by
    simp [generateSectionContent, genLoop, h0, h1, h2, r0, r1, r2]
  exact ⟨by rw [e], by rw [e], by rw [e]; norm_num, m2, h2, by rw [e]⟩

/-- Witness for C4 at an always-429 call. -/
theorem rate_limit_retry_exhaustion_witness :
    (generateSectionContent (fun _ => GenOutcome.err "429".data)
      "Methodology".data).sleeps = [30, 60] :=
  (rate_limit_retry_exhaustion (fun _ => GenOutcome.err "429".data)
    "Methodology".data (fun _ => ⟨"429".data, rfl, by decide⟩)).2.1

/-- C7: the embedding operation performs exactly one underlying call and,
when that call fails, wraps the error once, with the original message kept
intact (it occurs verbatim inside the wrapped message). -/
theorem embedding_error_wrapped_once (call : Nat → Except Str (List ℚ)) :
    (generateEmbeddings call).2 = 1 ∧
    (∀ m, call 0 = Except.error m →
      (generateEmbeddings call).1
        = Except.error ("Error generating embeddings: ".data ++ m) ∧
      listHasSub m ("Error generating embeddings: ".data ++ m) = true) := by
  refine ⟨?_, ?_⟩
  · cases hc : call 0 <;> simp [generateEmbeddings, hc]
  · intro m hm
    exact ⟨by simp [generateEmbeddings, hm], listHasSub_append _ _⟩

/-- Witness for C7 at a concrete failing provider. -/
theorem embedding_error_wrapped_once_witness :
    (generateEmbeddings (fun _ => Except.error "boom".data)).1
      = Except.error ("Error generating embeddings: ".data ++ "boom".data) :=
  ((embedding_error_wrapped_once (fun _ => Except.error "boom".data)).2
    "boom".data rfl).1

/-- C9: the `/api/generate` endpoint always persists `order_index = 0`
whatever the requested section name, while the background job persists the
canonical index — the stored index points back at the section's position in
the canonical list. -/
theorem order_index_contrast :
    (∀ sectionName content,
      (apiGenerateSectionRow sectionName content).orderIndex = 0) ∧
    (∀ sectionName, sectionName ∈ comprehensiveSections → ∀ content,
      comprehensiveSections.get? (backgroundSectionRow sectionName content).orderIndex
        = some sectionName) ∧
    (backgroundSectionRow "Conclusion".data "x".data).orderIndex = 9 := by
  refine ⟨fun _ _ => rfl, ?_, by decide⟩
  intro sectionName h content
  fin_cases h <;> simp only [backgroundSectionRow] <;> decide

/-- Witness for C9 at a mid-list canonical section. -/
theorem order_index_contrast_witness :
    comprehensiveSections.get?
      (backgroundSectionRow "Results".data "y".data).orderIndex
      = some ("Results".data) :=
  order_index_contrast.2.1 "Results".data (by decide) "y".data

/-- C10: the final metadata counts only the sections inserted during this
run, so on any resumed job (at least one section already existed) the
reported `completed_sections` is strictly below the paper's actual section
count, namely the pre-existing rows plus the rows inserted by this run. -/
theorem resumed_job_undercounts (existing : List Str)
    (gen : List Str → BatchResult) (saveOk : Str → Bool) (hex : existing ≠ []) :
    (runGenerationJob existing gen saveOk).1.completedSections
      = (runGenerationJob existing gen saveOk).2.length ∧
    (runGenerationJob existing gen saveOk).1.completedSections
      < existing.length + (runGenerationJob existing gen saveOk).2.length := by
  have h1 : (runGenerationJob existing gen saveOk).1.completedSections
      = (runGenerationJob existing gen saveOk).2.length := rfl
  have h2 : 0 < existing.length := List.length_pos.mpr hex
  exact ⟨h1, by omega⟩

/-- Witness for C10: resuming with Abstract present reports strictly fewer
completed sections than the paper holds. -/
theorem resumed_job_undercounts_witness :
    (runGenerationJob ["Abstract".data] (fun _ => BatchResult.failed "x".data)
      (fun _ => true)).1.completedSections
      < (["Abstract".data] : List Str).length
        + (runGenerationJob ["Abstract".data] (fun _ => BatchResult.failed "x".data)
            (fun _ => true)).2.length :=
  (resumed_job_undercounts ["Abstract".data] (fun _ => BatchResult.failed "x".data)
    (fun _ => true) (by decide)).2
